import Mathlib

/-!
Shallow embedding of the Tock terminal clock (`tock.py`) and proofs about
its four rendering styles and its input/loop state machine.

The rendering functions (`draw_digital_clock`, `draw_simple_clock`,
`draw_binary_clock`, `draw_words_clock`) and the word-table helpers
(`number_to_words`, `minutes_to_words`) are translated from the Python
source.  Hours, minutes and seconds are natural numbers (the time source
yields 0–23 / 0–59 / 0–59); the one place where Python integer arithmetic
can go negative (`m - 40` inside `_minutes_to_words`) is computed over
`Int`, matching Python's unbounded signed integers.
-/

namespace Tock

/-- Python `f"{n:02d}"` for a nonnegative `n`: the decimal numeral,
left-padded with zeros to width 2. -/
def fmt02 (n : Nat) : String :=
  let s := Nat.repr n
  ⟨List.replicate (2 - s.length) '0' ++ s.data⟩

/-- `time_str = f"{h:02d}:{m:02d}:{s:02d}"`, shared by the digital and
simple styles. -/
def time_str (h m s : Nat) : String :=
  fmt02 h ++ ":" ++ fmt02 m ++ ":" ++ fmt02 s

/-- Glyph of character `'0'` in the `self.digits` table. -/
def glyph0 : List String :=
  [" ████ ", "█    █", "█    █", "█    █", "█    █", " ████ "]

/-- Glyph of character `'1'`. -/
def glyph1 : List String :=
  ["  █   ", " ██   ", "  █   ", "  █   ", "  █   ", " ████ "]

/-- Glyph of character `'2'`. -/
def glyph2 : List String :=
  [" ████ ", "█    █", "     █", "    █ ", "   █  ", " █████"]

/-- Glyph of character `'3'`. -/
def glyph3 : List String :=
  [" ████ ", "     █", "  ███ ", "     █", "     █", " ████ "]

/-- Glyph of character `'4'`. -/
def glyph4 : List String :=
  ["█     ", "█  █  ", "█████ ", "    █ ", "    █ ", "    █ "]

/-- Glyph of character `'5'`. -/
def glyph5 : List String :=
  [" █████", "█     ", "█████ ", "     █", "     █", " ████ "]

/-- Glyph of character `'6'`. -/
def glyph6 : List String :=
  [" ████ ", "█     ", "█████ ", "█    █", "█    █", " ████ "]

/-- Glyph of character `'7'`. -/
def glyph7 : List String :=
  [" █████", "     █", "    █ ", "   █  ", "  █   ", "  █   "]

/-- Glyph of character `'8'`. -/
def glyph8 : List String :=
  [" ████ ", "█    █", " ████ ", "█    █", "█    █", " ████ "]

/-- Glyph of character `'9'`. -/
def glyph9 : List String :=
  [" ████ ", "█    █", " █████", "     █", "     █", " ████ "]

/-- Glyph of character `':'`. -/
def glyphColon : List String :=
  ["      ", "  ██  ", "  ██  ", "  ██  ", "  ██  ", "      "]

/-- `self.digits.get(char, self.digits['0'])`: glyph-table lookup with the
`'0'` glyph as the defensive default. -/
def digits_get (c : Char) : List String :=
  if c = '0' then glyph0
  else if c = '1' then glyph1
  else if c = '2' then glyph2
  else if c = '3' then glyph3
  else if c = '4' then glyph4
  else if c = '5' then glyph5
  else if c = '6' then glyph6
  else if c = '7' then glyph7
  else if c = '8' then glyph8
  else if c = '9' then glyph9
  else if c = ':' then glyphColon
  else glyph0

/-- `draw_digital_clock`: start from six empty lines and, for each character
of `time_str`, append that character's glyph row plus a two-space separator
to the corresponding accumulated line (`lines[i] += line + '  '`). -/
def draw_digital_clock (h m s : Nat) : List String :=
  (time_str h m s).data.foldl
    (fun lines c =>
      List.zipWith (fun line g => line ++ g ++ "  ") lines (digits_get c))
    (List.replicate 6 "")

/-- `draw_simple_clock`: a single `HH:MM:SS` line. -/
def draw_simple_clock (h m s : Nat) : List String :=
  [time_str h m s]

/-- Binary digits of `n` (most significant first), fuel-based repeated
division by two; the fuel is the number itself, which bounds the digit
count. -/
def binDigitsAux : Nat → Nat → List Char → List Char
  | 0, _, acc => acc
  | fuel + 1, n, acc =>
    if n = 0 then acc
    else binDigitsAux fuel (n / 2) ((if n % 2 = 1 then '1' else '0') :: acc)

/-- Python `format(value, '06b')` for a nonnegative value: binary digits
left-padded with zeros to width 6. -/
def fmt06b (v : Nat) : String :=
  let ds := if v = 0 then ['0'] else binDigitsAux v v []
  ⟨List.replicate (6 - ds.length) '0' ++ ds⟩

/-- One labeled value line of the binary clock:
`line = label` then `for bit in bits: line += '● ' / '○ '`. -/
def bit_line (label : String) (v : Nat) : String :=
  (fmt06b v).data.foldl
    (fun line b => line ++ (if b = '1' then "● " else "○ ")) label

/-- The bit-position ruler line `'  ' + '  '.join(['6','5','4','3','2','1'])`. -/
def ruler_line : String :=
  "  " ++ String.intercalate "  " ["6", "5", "4", "3", "2", "1"]

/-- `draw_binary_clock`: for each of hours `% 24`, minutes, seconds emit the
labeled value line, the ruler line and a blank separator, then drop the
trailing blank (`lines[:-1]`). -/
def draw_binary_clock (h m s : Nat) : List String :=
  let hours := h % 24
  let groups : List (Nat × String) := [(hours, "H "), (m, "M "), (s, "S ")]
  (groups.flatMap (fun vl => [bit_line vl.2 vl.1, ruler_line, ""])).dropLast

/-- `_number_to_words`: the 1–12 word table with fallback `str(n)`.  Over
`Int` because `_minutes_to_words` can call it with a negative argument. -/
def number_to_words (n : Int) : String :=
  if n = 1 then "ONE"
  else if n = 2 then "TWO"
  else if n = 3 then "THREE"
  else if n = 4 then "FOUR"
  else if n = 5 then "FIVE"
  else if n = 6 then "SIX"
  else if n = 7 then "SEVEN"
  else if n = 8 then "EIGHT"
  else if n = 9 then "NINE"
  else if n = 10 then "TEN"
  else if n = 11 then "ELEVEN"
  else if n = 12 then "TWELVE"
  else Int.repr n

/-- `_minutes_to_words`: special cases 1, 15, 30, 45; below 30 a direct
number lookup; otherwise `"FORTY-" + words(m - 40)` (the subtraction is
Python integer arithmetic, so it can be negative). -/
def minutes_to_words (m : Nat) : String :=
  if m = 1 then "ONE"
  else if m = 15 then "FIFTEEN"
  else if m = 30 then "THIRTY"
  else if m = 45 then "FORTY-FIVE"
  else if m < 30 then number_to_words (m : Int)
  else "FORTY-" ++ number_to_words ((m : Int) - 40)

/-- Python `h % 12 or 12`: 12 when `h % 12` is zero, else `h % 12`. -/
def hour_twelve (h : Nat) : Nat :=
  if h % 12 = 0 then 12 else h % 12

/-- `draw_words_clock`: hour word via the 12-hour convention, minute phrase
via `_minutes_to_words`; single line, `O'CLOCK` form when the minute is 0. -/
def draw_words_clock (h m s : Nat) : List String :=
  let hours_word := number_to_words ((hour_twelve h : Nat) : Int)
  let minutes_word := minutes_to_words m
  if m = 0 then [hours_word ++ " O'CLOCK"]
  else [hours_word ++ " " ++ minutes_word]

/-- The style list `['digital', 'simple', 'binary', 'words']`. -/
def styles : List String := ["digital", "simple", "binary", "words"]

/-- The mutable application state of `TockClock` relevant to input handling:
style index, footer visibility, running flag.  The index is an `Int` because
Python's `(i - 1) % 4` is signed arithmetic with a nonnegative result,
matching `Int`'s `%` for a positive modulus. -/
structure AppState where
  current_style : Int
  show_footer : Bool
  running : Bool
deriving DecidableEq, Repr

/-- A keyboard input event as `handle_input` distinguishes them: left and
right arrows, `h`/`H`, `q`/`Q`, and any other (or no) key. -/
inductive Key where
  | left
  | right
  | lowerH
  | upperH
  | lowerQ
  | upperQ
  | other
deriving DecidableEq, Repr

/-- `handle_input`: left/right arrows cycle the style index modulo the
number of styles, `h`/`H` toggles the footer, `q`/`Q` clears the running
flag, anything else is a no-op. -/
def handle_input (st : AppState) (k : Key) : AppState :=
  match k with
  | .left => { st with current_style := (st.current_style - 1) % (styles.length : Int) }
  | .right => { st with current_style := (st.current_style + 1) % (styles.length : Int) }
  | .lowerH | .upperH => { st with show_footer := !st.show_footer }
  | .lowerQ | .upperQ => { st with running := false }
  | .other => st

/-- Fuel-bounded model of the `while self.running` loop in `run`, counting
completed ticks.  Each tick renders and then handles at most one pending
input event — the head of the event stream, with `Key.other` standing for
"no key pending" when the stream is empty. -/
def loop_ticks : Nat → AppState → List Key → Nat
  | 0, _, _ => 0
  | fuel + 1, st, evs =>
    if st.running then
      match evs with
      | [] => 1 + loop_ticks fuel (handle_input st .other) []
      | e :: rest => 1 + loop_ticks fuel (handle_input st e) rest
    else 0

/-! ### Spec-side definitions

These restate what the specification's sentences describe, independently of
the control flow of the source, so that the rendering functions can be
compared against them. -/

/-- Spec-side: the zero-padded `HH:MM:SS` string written as explicit digit
characters. -/
def spec_hhmmss (h m s : Nat) : String :=
  ⟨[Nat.digitChar (h / 10), Nat.digitChar (h % 10), ':',
    Nat.digitChar (m / 10), Nat.digitChar (m % 10), ':',
    Nat.digitChar (s / 10), Nat.digitChar (s % 10)]⟩

/-- Spec-side: the 1–12 number-to-word table of the spec's WordTables. -/
def spec_word : Nat → String
  | 1 => "ONE"
  | 2 => "TWO"
  | 3 => "THREE"
  | 4 => "FOUR"
  | 5 => "FIVE"
  | 6 => "SIX"
  | 7 => "SEVEN"
  | 8 => "EIGHT"
  | 9 => "NINE"
  | 10 => "TEN"
  | 11 => "ELEVEN"
  | 12 => "TWELVE"
  | _ => ""

/-- Spec-side row-major reading of the digital display: row `i` is the
row-`i` glyph line of each character in turn, each followed by the
two-space separator. -/
def row_concat (cs : List Char) (i : Nat) : String :=
  cs.foldr (fun c acc => ((digits_get c).getD i "") ++ "  " ++ acc) ""

/-- The digital frame read row-major: six rows over the characters of
`time_str`. -/
def spec_digital (h m s : Nat) : List String :=
  (List.range 6).map (fun i => row_concat (time_str h m s).data i)

/-- Row-major reading with the separator only between consecutive
characters (none after the last), as claim C3 words it. -/
def row_concat_between (cs : List Char) (i : Nat) : String :=
  String.intercalate "  " (cs.map (fun c => (digits_get c).getD i ""))

/-- Decode a line's dot pattern MSB-first: a filled dot is a 1 bit, a hollow
dot a 0 bit, any other character is ignored. -/
def decode_dots (line : String) : Nat :=
  line.data.foldl
    (fun a c => if c = '●' then 2 * a + 1 else if c = '○' then 2 * a else a) 0

/-! ### Helper lemmas -/

/-- A left fold that only ever appends to its accumulator factors through an
empty accumulator. -/
theorem foldl_append_factor {α : Type} (g : α → String) (l : List α) :
    ∀ acc : String,
      l.foldl (fun line b => line ++ g b) acc
        = acc ++ l.foldl (fun line b => line ++ g b) "" := by
  induction l with
  | nil => intro acc; exact (String.append_empty acc).symm
  | cons b l ih =>
    intro acc
    have h1 : (b :: l).foldl (fun line x => line ++ g x) acc
        = l.foldl (fun line x => line ++ g x) (acc ++ g b) := rfl
    have h2 : (b :: l).foldl (fun line x => line ++ g x) ""
        = l.foldl (fun line x => line ++ g x) ("" ++ g b) := rfl
    rw [h1, h2, String.empty_append, ih (acc ++ g b), ih (g b),
      String.append_assoc]

/-- A labeled bit line is the label followed by the bare dot pattern. -/
theorem bit_line_append (label : String) (v : Nat) :
    bit_line label v = label ++ bit_line "" v :=
  foldl_append_factor (fun b => if b = '1' then "● " else "○ ") (fmt06b v).data label

/-- The binary frame is literally the three groups with the trailing blank
line removed. -/
theorem binary_structure (h m s : Nat) :
    draw_binary_clock h m s =
      [bit_line "H " (h % 24), ruler_line, "",
       bit_line "M " m, ruler_line, "",
       bit_line "S " s, ruler_line] := rfl

/-- Decoding a labeled bit line recovers the encoded value, for every value
that fits in six bits, under each of the three labels. -/
theorem decode_bit_line_lt64 :
    ∀ v < 64, decode_dots (bit_line "H " v) = v ∧
      decode_dots (bit_line "M " v) = v ∧ decode_dots (bit_line "S " v) = v := by
  decide

/-- Once the loop state is no longer running, no further tick occurs. -/
theorem loop_ticks_stopped (fuel : Nat) (st : AppState) (evs : List Key)
    (h : st.running = false) : loop_ticks fuel st evs = 0 := by
  cases fuel with
  | zero => rfl
  | succ n => cases evs <;> simp [loop_ticks, h]

/-- The two-digit formatter yields the two decimal digit characters. -/
theorem fmt02_data :
    ∀ n < 100, (fmt02 n).data = [Nat.digitChar (n / 10), Nat.digitChar (n % 10)] := by
  decide

/-! ### Claim theorems -/

/-- C1 (counterexample): at hour 5, minute 54 the Words style renders
`"FIVE FORTY-14"`, not the claimed `"FIVE FORTY-FOURTEEN"`: the number
table covers only 1–12 and 54 − 40 = 14 falls back to its decimal string. -/
theorem words_five_fiftyfour_cex :
    draw_words_clock 5 54 0 = ["FIVE FORTY-14"] ∧
    draw_words_clock 5 54 0 ≠ ["FIVE FORTY-FOURTEEN"] := by
  decide

/-- C1 (amended): for every minute m in 31–44 and 46–59 the minute phrase is
`"FORTY-"` followed by the number-to-word conversion of m − 40, which is the
English word when m − 40 lies in 1–12 (m in 41–44 and 46–52) and the decimal
string of m − 40 otherwise; in particular minute 53 gives `"FORTY-13"` and
h=5, m=54 renders as the single line `"FIVE FORTY-14"`. -/
theorem words_forty_phrase (m : Nat) (h31 : 31 ≤ m) (h59 : m ≤ 59) (h45 : m ≠ 45) :
    minutes_to_words m = "FORTY-" ++ number_to_words ((m : Int) - 40) ∧
    (41 ≤ m → m ≤ 52 → minutes_to_words m = "FORTY-" ++ spec_word (m - 40)) ∧
    (∀ s, draw_words_clock 5 54 s = ["FIVE FORTY-14"]) ∧
    minutes_to_words 53 = "FORTY-13" := by
  refine ⟨?_, ?_, fun s => rfl, by decide⟩
  · interval_cases m <;> decide
  · intro h41 h52
    interval_cases m <;> decide

/-- C1 (witness): the amended claim applied at m = 54. -/
theorem words_forty_phrase_wit :
    minutes_to_words 54 = "FORTY-" ++ number_to_words ((54 : Int) - 40) ∧
    (41 ≤ 54 → 54 ≤ 52 → minutes_to_words 54 = "FORTY-" ++ spec_word (54 - 40)) ∧
    (∀ s, draw_words_clock 5 54 s = ["FIVE FORTY-14"]) ∧
    minutes_to_words 53 = "FORTY-13" :=
  words_forty_phrase 54 (by decide) (by decide) (by decide)

/-- C2 (counterexample): the ruler line below each value line of the binary
frame is not `"6 5 4 3 2 1"` — the source writes two leading spaces and a
two-space `join`. -/
theorem binary_ruler_cex :
    (draw_binary_clock 0 0 0).getD 1 "" ≠ "6 5 4 3 2 1" := by
  decide

/-- C2 (amended): for every time, each of the three labeled value lines of
the binary frame is immediately followed by the bit-position ruler line
`"  6  5  4  3  2  1"` (two leading spaces; digits 6 down to 1 separated by
two spaces each). -/
theorem binary_ruler_lines (h m s : Nat) :
    ∃ hdots mdots sdots,
      draw_binary_clock h m s =
        ["H " ++ hdots, "  6  5  4  3  2  1", "",
         "M " ++ mdots, "  6  5  4  3  2  1", "",
         "S " ++ sdots, "  6  5  4  3  2  1"] := by
  refine ⟨bit_line "" (h % 24), bit_line "" m, bit_line "" s, ?_⟩
  rw [binary_structure, bit_line_append "H " (h % 24), bit_line_append "M " m,
    bit_line_append "S " s]
  rfl

/-- C4: the binary frame has exactly 8 lines, and decoding the dot patterns
of lines 1, 4 and 7 (1-indexed) MSB-first recovers h mod 24, m and s. -/
theorem binary_decode_correct (h m s : Nat)
    (hh : h < 24) (hm : m < 60) (hs : s < 60) :
    (draw_binary_clock h m s).length = 8 ∧
    decode_dots ((draw_binary_clock h m s).getD 0 "") = h % 24 ∧
    decode_dots ((draw_binary_clock h m s).getD 3 "") = m ∧
    decode_dots ((draw_binary_clock h m s).getD 6 "") = s := by
  rw [binary_structure]
  exact ⟨rfl, (decode_bit_line_lt64 (h % 24) (by omega)).1,
    (decode_bit_line_lt64 m (by omega)).2.1,
    (decode_bit_line_lt64 s (by omega)).2.2⟩

/-- C4 (witness): the decode theorem applied at 12:34:56. -/
theorem binary_decode_correct_wit :
    (draw_binary_clock 12 34 56).length = 8 ∧
    decode_dots ((draw_binary_clock 12 34 56).getD 0 "") = 12 % 24 ∧
    decode_dots ((draw_binary_clock 12 34 56).getD 3 "") = 34 ∧
    decode_dots ((draw_binary_clock 12 34 56).getD 6 "") = 56 :=
  binary_decode_correct 12 34 56 (by decide) (by decide) (by decide)

/-- C5: the Simple style is exactly one line, the zero-padded 24-hour
`HH:MM:SS` string (spelled out digit character by digit character). -/
theorem simple_one_line (h m s : Nat)
    (hh : h < 24) (hm : m < 60) (hs : s < 60) :
    draw_simple_clock h m s = [spec_hhmmss h m s] := by
  have Hh := fmt02_data h (by omega)
  have Hm := fmt02_data m (by omega)
  have Hs := fmt02_data s (by omega)
  have key : (time_str h m s).data = (spec_hhmmss h m s).data := by
    simp [time_str, String.data_append, Hh, Hm, Hs, spec_hhmmss]
  exact congrArg (fun x => [x]) (String.ext key)

/-- C5 (witness): the Simple-style theorem applied at 12:34:56. -/
theorem simple_one_line_wit :
    draw_simple_clock 12 34 56 = [spec_hhmmss 12 34 56] :=
  simple_one_line 12 34 56 (by decide) (by decide) (by decide)

/-- C6: the Words style always renders one line, the hour follows the
12-hour convention (0 maps to 12, 13–23 map to 1–11), and the four spec
examples hold: TWELVE O'CLOCK, ONE FIFTEEN, NINE FORTY-FIVE, FIVE ONE. -/
theorem words_hour_convention :
    (∀ h m s, (draw_words_clock h m s).length = 1) ∧
    hour_twelve 0 = 12 ∧
    (∀ h, 13 ≤ h → h ≤ 23 → hour_twelve h = h - 12) ∧
    (∀ s, draw_words_clock 0 0 s = ["TWELVE O'CLOCK"]) ∧
    (∀ s, draw_words_clock 13 15 s = ["ONE FIFTEEN"]) ∧
    (∀ s, draw_words_clock 9 45 s = ["NINE FORTY-FIVE"]) ∧
    (∀ s, draw_words_clock 5 1 s = ["FIVE ONE"]) := by
  refine ⟨?_, rfl, ?_, fun s => rfl, fun s => rfl, fun s => rfl, fun s => rfl⟩
  · intro h m s
    by_cases hm : m = 0 <;> simp [draw_words_clock, hm]
  · intro h h13 h23
    interval_cases h <;> rfl

/-- C6 (witness): the hour-convention theorem applied at hour 17. -/
theorem words_hour_convention_wit : hour_twelve 17 = 17 - 12 :=
  words_hour_convention.2.2.1 17 (by decide) (by decide)

/-- C7: from any in-range style index, NextStyle then PreviousStyle returns
to the original index, and four consecutive NextStyle transitions (the
number of styles) also return to it. -/
theorem style_cycle_laws (st : AppState)
    (h0 : 0 ≤ st.current_style) (h3 : st.current_style ≤ 3) :
    (handle_input (handle_input st .right) .left).current_style = st.current_style ∧
    (handle_input (handle_input (handle_input (handle_input st .right) .right) .right)
        .right).current_style = st.current_style := by
  have hlen : (styles.length : Int) = 4 := rfl
  simp only [handle_input, hlen]
  constructor <;> omega

/-- C7 (witness): the cycling laws applied at style index 2. -/
theorem style_cycle_laws_wit :
    (handle_input (handle_input ⟨2, true, true⟩ .right) .left).current_style
      = (⟨2, true, true⟩ : AppState).current_style ∧
    (handle_input (handle_input (handle_input (handle_input ⟨2, true, true⟩ .right)
        .right) .right) .right).current_style
      = (⟨2, true, true⟩ : AppState).current_style :=
  style_cycle_laws ⟨2, true, true⟩ (by decide) (by decide)

/-- C8: from a running state, a Quit event (`q` or `Q`) clears the running
flag; a stopped state performs no further tick; and a running state whose
pending event is Quit performs exactly the one tick that handles the event
and no more. -/
theorem quit_stops_loop (st : AppState) (hrun : st.running = true) :
    (handle_input st Key.lowerQ).running = false ∧
    (handle_input st Key.upperQ).running = false ∧
    (∀ fuel evs (st2 : AppState), st2.running = false → loop_ticks fuel st2 evs = 0) ∧
    (∀ fuel evs, loop_ticks (fuel + 1) st (Key.lowerQ :: evs) = 1) := by
  refine ⟨rfl, rfl, fun fuel evs st2 h => loop_ticks_stopped fuel st2 evs h,
    fun fuel evs => ?_⟩
  simp [loop_ticks, hrun, handle_input, loop_ticks_stopped]

/-- C8 (witness): the quit theorem applied to the initial state. -/
theorem quit_stops_loop_wit :
    (handle_input ⟨0, true, true⟩ Key.lowerQ).running = false ∧
    (handle_input ⟨0, true, true⟩ Key.upperQ).running = false ∧
    (∀ fuel evs (st2 : AppState), st2.running = false → loop_ticks fuel st2 evs = 0) ∧
    (∀ fuel evs, loop_ticks (fuel + 1) ⟨0, true, true⟩ (Key.lowerQ :: evs) = 1) :=
  quit_stops_loop ⟨0, true, true⟩ rfl

/-- C9: for every minute in {13, 14} ∪ {16, …, 29} the Words-style minute
phrase is the decimal numeral of the minute (the 1–12 word table falls back
to `str(n)`), and h=5, m=13 renders as `"FIVE 13"`. -/
theorem minutes_fallback_digits :
    (∀ m : Nat, m < 30 → (m = 13 ∨ m = 14 ∨ 16 ≤ m) →
      minutes_to_words m = Nat.repr m) ∧
    (∀ s, draw_words_clock 5 13 s = ["FIVE 13"]) := by
  refine ⟨by decide, fun s => rfl⟩

/-- C9 (witness): the fallback theorem applied at minute 17. -/
theorem minutes_fallback_digits_wit : minutes_to_words 17 = Nat.repr 17 :=
  minutes_fallback_digits.1 17 (by decide) (by decide)

/-- C10: for every minute in 31–39 the offset-by-40 formula goes negative
and the phrase is `"FORTY-"` followed by the decimal string of the negative
number m − 40; minute 31 yields `"FORTY--9"`. -/
theorem minutes_negative_offset (m : Nat) (h31 : 31 ≤ m) (h39 : m ≤ 39) :
    minutes_to_words m = "FORTY-" ++ Int.repr ((m : Int) - 40) ∧
    minutes_to_words 31 = "FORTY--9" := by
  refine ⟨?_, by decide⟩
  interval_cases m <;> decide

/-- Every glyph the lookup can return has exactly 6 rows. -/
theorem digits_get_length (c : Char) : (digits_get c).length = 6 := by
  unfold digits_get
  repeat' split
  all_goals rfl

/-- Zipping six accumulated rows with any six-row list appends, in row `i`,
the `i`-th element plus the separator. -/
theorem zip_step6 (g : Nat → String) (gl : List String) (hgl : gl.length = 6) :
    List.zipWith (fun line x => line ++ x ++ "  ") ((List.range 6).map g) gl
      = (List.range 6).map (fun i => g i ++ gl.getD i "" ++ "  ") := by
  match gl, hgl with
  | [a, b, c, d, e, f], _ => rfl

/-- One step of the digital fold, read row-major: appending a character's
glyph to six accumulated rows appends row `i` of the glyph (plus the
separator) to row `i` of the accumulator. -/
theorem zip_step (g : Nat → String) (c : Char) :
    List.zipWith (fun line gl => line ++ gl ++ "  ") ((List.range 6).map g)
        (digits_get c)
      = (List.range 6).map (fun i => g i ++ (digits_get c).getD i "" ++ "  ") :=
  zip_step6 g (digits_get c) (digits_get_length c)

/-- The whole digital fold, read row-major: folding the per-character step
over six accumulated rows yields, in row `i`, the accumulator's row `i`
followed by the row-`i` glyph lines of all characters. -/
theorem foldl_rows (cs : List Char) :
    ∀ g : Nat → String,
      cs.foldl
          (fun lines c =>
            List.zipWith (fun line gl => line ++ gl ++ "  ") lines (digits_get c))
          ((List.range 6).map g)
        = (List.range 6).map (fun i => g i ++ row_concat cs i) := by
  induction cs with
  | nil =>
    intro g
    simp [row_concat, String.append_empty]
  | cons c cs ih =>
    intro g
    rw [List.foldl_cons, zip_step, ih]
    simp only [row_concat, List.foldr_cons, String.append_assoc]

/-- C3 (counterexample): at 00:00:00 the digital frame differs from the
claimed form with separators only *between* characters — every character's
glyph rows, the last included, are followed by the two-space separator. -/
theorem digital_sep_cex :
    draw_digital_clock 0 0 0 ≠
      (List.range 6).map (fun i => row_concat_between (time_str 0 0 0).data i) := by
  decide

/-- C3 (amended): for every time, the Digital style produces exactly 6
lines, where line i is the concatenation, over the characters of the
zero-padded `HH:MM:SS` string in order, of row i of each character's glyph
followed by a two-space separator (the separator also follows the last
character). -/
theorem digital_rows (h m s : Nat) :
    draw_digital_clock h m s = spec_digital h m s ∧
    (draw_digital_clock h m s).length = 6 := by
  have key : draw_digital_clock h m s = spec_digital h m s := by
    have h0 : (List.replicate 6 "" : List String)
        = (List.range 6).map (fun _ : Nat => "") := rfl
    unfold draw_digital_clock spec_digital
    rw [h0, foldl_rows]
    simp [String.empty_append]
  exact ⟨key, by rw [key]; simp [spec_digital]⟩

/-- C10 (witness): the negative-offset theorem applied at minute 31. -/
theorem minutes_negative_offset_wit :
    minutes_to_words 31 = "FORTY-" ++ Int.repr ((31 : Int) - 40) ∧
    minutes_to_words 31 = "FORTY--9" :=
  minutes_negative_offset 31 (by decide) (by decide)

end Tock
